import Mathlib

/-!
Verification of the connection and header-chain reconciliation engine of
qtum-electrum (`qtum_electrum/network.py`).

The engine's collaborators (the `blockchain` module: `Blockchain` objects with
`check_header`, `can_connect`, `save_header`, `fork`, `height`, and the
module-level `blockchain.check_header` / `blockchain.can_connect`) are not part
of the analysed sources; they are represented as oracle functions carried by the
`Chain` record or passed as parameters.  Heights are natural numbers; header
heights computed by the code that may go negative in Python (`height - 1`,
`tip - 2*delta`) are computed over `Int` exactly as the source does.  Paths on
which Python would raise (for example dereferencing a `None` blockchain or the
`assert bh == interface.good`) make the embedded functions return `none`.
-/

set_option maxRecDepth 4000

namespace QtumElectrum

/-- Retry intervals from the top of `network.py`. -/
def NODES_RETRY_INTERVAL : Int := 60

/-- Retry interval for the default server (`network.py`). -/
def SERVER_RETRY_INTERVAL : Int := 10

/-- A deserialized block header.  Only the `block_height` field is read by the
engine; `raw` stands for the rest of the payload and makes distinct headers
distinguishable. -/
structure Header where
  blockHeight : Nat
  raw : Nat
  deriving DecidableEq, Repr

/-- The per-interface sync mode (`interface.mode`). -/
inductive Mode where
  | default
  | backward
  | binary
  | catchUp
  deriving DecidableEq, Repr

/-- A `Blockchain` collaborator object.  `catchUp` and `height` are the two
pieces of state the engine reads and writes; the remaining fields are oracles
for the collaborator methods the engine calls on a chain object. -/
structure Chain where
  catchUp : Option String
  height : Int
  checkHeader : Header → Bool
  parentCheckH : Header → Bool
  parentId : Nat
  canConnect : Header → Bool
  canConnectNoHeight : Header → Bool

/-- Per-server interface state (`Interface` object fields used by the sync
state machine).  `blockchain` refers to a chain by its forkpoint key in the
network's chain map. -/
structure Iface where
  server : String
  mode : Mode
  request : Option Nat
  tip : Nat
  tipHeader : Option Header
  good : Nat
  bad : Nat
  badHeader : Option Header
  blockchain : Option Nat

/-- The parts of the `Network` object state touched by the header machinery:
`self.blockchains` (keyed by forkpoint), `self.disconnected_servers` and
`self.requested_chunks`. -/
structure NetSt where
  chains : List (Nat × Chain)
  disconnected : List String
  requestedChunks : List Nat

/-- A request issued at the end of a header handler: a single-header fetch
(`request_header`) or a chunk fetch (`request_chunk`). -/
inductive HdrAction where
  | reqHeader (height : Nat)
  | reqChunk (index : Nat)
  deriving DecidableEq, Repr

/-- Lookup in the forkpoint-keyed chain map (first match wins; updates shadow). -/
def lookupChain : List (Nat × Chain) → Nat → Option Chain
  | [], _ => none
  | p :: rest, k' => if k' = p.1 then some p.2 else lookupChain rest k'

/-- Store a chain under a forkpoint key (`self.blockchains[k] = c`, and also the
effect of mutating the chain object stored under `k`). -/
def setChain (k : Nat) (c : Chain) (l : List (Nat × Chain)) : List (Nat × Chain) :=
  (k, c) :: l

/-- The marker-clearing loop of `connection_down`: every chain whose `catch_up`
names `server` has it reset to `None`. -/
def clearMarkers (server : String) (l : List (Nat × Chain)) : List (Nat × Chain) :=
  l.map fun p => (p.1, if p.2.catchUp = some server then { p.2 with catchUp := none } else p.2)

/-- Python-set insertion into the disconnected-servers set. -/
def addServer (server : String) (l : List String) : List String :=
  if server ∈ l then l else server :: l

/-- The state effect of `Network.connection_down`: the server joins
`disconnected_servers` and every blockchain whose `catch_up` equals the server
has its marker cleared.  (Closing the socket and the GUI callback are not
modelled.) -/
def connection_down (server : String) (st : NetSt) : NetSt :=
  { st with
    disconnected := addServer server st.disconnected
    chains := clearMarkers server st.chains }

/-- Resolve the chain returned by a module-level collaborator call
(`blockchain.check_header` / `blockchain.can_connect`) against the engine's
chain map.  The collaborator returns an object that the engine also reaches
through `self.blockchains`; an unresolvable key is a model error (`none`). -/
def resolve (chains : List (Nat × Chain)) : Option Nat → Option (Option (Nat × Chain))
  | none => some none
  | some k =>
    match lookupChain chains k with
    | none => none
    | some c => some (some (k, c))

/-- Intermediate result of one `on_get_header` branch: updated network state,
updated interface, and the `next_height` value (over `Int`, as in the source). -/
def GHRes := NetSt × Iface × Option Int

/-- Result of a header handler: interface, network state and the request it
issued (if any). -/
structure GetHeaderOut where
  iface : Iface
  net : NetSt
  action : Option HdrAction

/-- Fresh chain produced by `interface.blockchain.fork(bad_header)`.
Modelled from the spec: `Blockchain.fork` lives in the collaborator
`blockchain` module (not under the analysed sources); per the spec a chain's
`catch_up` marker names the server currently filling it in, so a freshly
constructed fork starts with no marker, rooted at the bad header. -/
def mkFork (forkOracle : Nat → Header → Chain) (parent : Nat) (h : Header) : Chain :=
  { forkOracle parent h with catchUp := none, height := (h.blockHeight : Int) }

/-- Shared `else` part of the `backward` branch of `on_get_header` (the
`elif chain: ... else: ...` after the failed connect-with-free-marker test). -/
def backwardElse (st : NetSt) (i : Iface) (header : Header) (height : Nat)
    (chainOpt : Option (Nat × Chain)) : GHRes :=
  match chainOpt with
  | some (k, _) =>
    (st, { i with mode := .binary, blockchain := some k, good := height },
      some (((i.bad + height) / 2 : Nat) : Int))
  | none =>
    if height = 0 then
      (connection_down i.server st, i, none)
    else
      (st, { i with bad := height, badHeader := some header },
        some (max 0 ((i.tip : Int) - 2 * ((i.tip : Int) - (height : Int)))))

/-- The `backward` branch of `on_get_header` (lines 951-974 of `network.py`). -/
def backwardRes (st : NetSt) (i : Iface) (header : Header) (height : Nat)
    (chainOpt canC : Option (Nat × Chain)) : GHRes :=
  match canC with
  | some (ck, c) =>
    if c.catchUp = none then
      ({ st with chains := setChain ck { c with height := (height : Int), catchUp := some i.server } st.chains },
        { i with mode := .catchUp, blockchain := some ck },
        some ((height : Int) + 1))
    else backwardElse st i header height chainOpt
  | none => backwardElse st i header height chainOpt

/-- The good/bad update at the top of the `binary` branch of `on_get_header`. -/
def binaryUpdate (chainOpt : Option (Nat × Chain)) (height : Nat) (header : Header)
    (i : Iface) : Iface :=
  match chainOpt with
  | some (k, _) => { i with good := height, blockchain := some k }
  | none => { i with bad := height, badHeader := some header }

/-- The `binary` branch of `on_get_header` (lines 976-1028 of `network.py`).
Returns `none` where Python would raise (unset `blockchain`/`bad_header`
attribute, failed `assert bh == interface.good`, untracked chain key). -/
def binaryRes (forkOracle : Nat → Header → Chain) (st : NetSt) (i : Iface)
    (header : Header) (height : Nat) (chainOpt : Option (Nat × Chain)) : Option GHRes :=
  let i1 := binaryUpdate chainOpt height header i
  if i1.bad ≠ i1.good + 1 then
    some (st, i1, some (((i1.bad + i1.good) / 2 : Nat) : Int))
  else
    match i1.blockchain with
    | none => none
    | some bk =>
      match lookupChain st.chains bk with
      | none => none
      | some bc =>
        match i1.badHeader with
        | none => none
        | some bh =>
          if bc.canConnectNoHeight bh = false then
            some (connection_down i1.server st, i1, none)
          else
            match lookupChain st.chains i1.bad with
            | some branch =>
              if branch.checkHeader bh then
                some (st, i1, none)
              else if branch.parentCheckH header then
                some (st, { i1 with blockchain := some branch.parentId }, some (i1.bad : Int))
              else
                some ({ st with chains :=
                          setChain i1.bad { branch with height := (bh.blockHeight : Int),
                                                        catchUp := some i1.server } st.chains },
                  { i1 with mode := .catchUp, blockchain := some i1.bad },
                  some ((i1.bad : Int) + 1))
            | none =>
              let bhgt := bc.height
              if bhgt > (i1.good : Int) then
                if bc.checkHeader bh = false then
                  some ({ st with chains :=
                            setChain i1.bad { mkFork forkOracle bk bh with catchUp := some i1.server } st.chains },
                    { i1 with mode := .catchUp, blockchain := some i1.bad },
                    some ((i1.bad : Int) + 1))
                else some (st, i1, none)
              else if bhgt = (i1.good : Int) then
                if bc.catchUp = none ∧ bhgt < (i1.tip : Int) then
                  some ({ st with chains := setChain bk { bc with catchUp := some i1.server } st.chains },
                    { i1 with mode := .catchUp }, some (bhgt + 1))
                else some (st, i1, none)
              else none

/-- The `catch_up` branch of `on_get_header` (lines 1030-1048 of `network.py`).
`switch_lagging_interface`, called when catch-up completes, does not touch
chain markers or the disconnected set and is not modelled. -/
def catchUpRes (st : NetSt) (i : Iface) (header : Header) (height : Nat) : Option GHRes :=
  match i.blockchain with
  | none => none
  | some bk =>
    match lookupChain st.chains bk with
    | none => none
    | some c =>
      if c.canConnect header then
        if height < i.tip then
          some ({ st with chains := setChain bk { c with height := (height : Int) } st.chains },
            i, some ((height : Int) + 1))
        else
          some ({ st with chains :=
                    setChain bk { c with height := (height : Int), catchUp := none } st.chains },
            i, none)
      else
        some (st, { i with mode := .backward, bad := height, badHeader := some header },
          some ((height : Int) - 1))

/-- The request-issuing tail of `on_get_header` (lines 1052-1064): clamp
negative heights to a teardown, fetch a chunk instead of a single header when
catching up far behind the tip, otherwise fetch the next single header. -/
def finishGH (chunkSize : Nat) (r : GHRes) : GetHeaderOut :=
  match r with
  | (st, i, next) =>
    match next with
    | none => ⟨{ i with mode := .default, request := none }, st, none⟩
    | some n =>
      if n < 0 then
        ⟨{ i with mode := .default, request := none }, connection_down i.server st, none⟩
      else if i.mode = .catchUp ∧ (i.tip : Int) > n + 50 then
        let idx := n.toNat / chunkSize
        if idx ∈ st.requestedChunks then ⟨i, st, none⟩
        else ⟨i, { st with requestedChunks := idx :: st.requestedChunks }, some (.reqChunk idx)⟩
      else
        ⟨{ i with request := some n.toNat }, st, some (.reqHeader n.toNat)⟩

/-- `Network.on_get_header`.  `checkHeaderG` and `canConnectG` are the
module-level `blockchain.check_header` / `blockchain.can_connect` oracles
(returning the matching chain's forkpoint key), `forkOracle` supplies the
collaborator behaviour of freshly forked chains, and `resp` is the decoded
header of the response (`none` for a falsy result). -/
def on_get_header (checkHeaderG canConnectG : Header → Option Nat)
    (forkOracle : Nat → Header → Chain) (chunkSize : Nat)
    (st : NetSt) (i : Iface) (resp : Option Header) : Option GetHeaderOut :=
  match resp with
  | none => some ⟨i, connection_down i.server st, none⟩
  | some header =>
    let height := header.blockHeight
    if i.request = some height then
      match resolve st.chains (checkHeaderG header) with
      | none => none
      | some chainOpt =>
        match i.mode with
        | .default => none
        | .backward =>
          match resolve st.chains (canConnectG header) with
          | none => none
          | some canC => some (finishGH chunkSize (backwardRes st i header height chainOpt canC))
        | .binary => (binaryRes forkOracle st i header height chainOpt).map (finishGH chunkSize)
        | .catchUp => (catchUpRes st i header height).map (finishGH chunkSize)
    else
      some ⟨i, connection_down i.server st, none⟩

/-- Maximum height over all tracked chains
(`max([x.height() for x in self.blockchains.values()])`); `none` when the map
is empty, where Python raises. -/
def maxChainHeight : List (Nat × Chain) → Option Int
  | [] => none
  | (_, c) :: rest => some (rest.foldl (fun m p => max m p.2.height) c.height)

/-- Result of `on_notify_header`: interface, network state and the request it
issued (if any). -/
structure NotifyOut where
  iface : Iface
  net : NetSt
  action : Option HdrAction

/-- `Network.on_notify_header` (lines 1138-1185 of `network.py`).  `input` is
the decoded `(header, height)` of the tip notification, with the height read
back from the deserialized header; `none` stands for a notification missing
the `hex`/`height` keys.  `switch_lagging_interface`, reached when the header
matches or connects, does not touch the modelled state and is elided. -/
def on_notify_header (checkHeaderG canConnectG : Header → Option Nat)
    (st : NetSt) (i : Iface) (input : Option Header) : Option NotifyOut :=
  match input with
  | none => some ⟨i, connection_down i.server st, none⟩
  | some header =>
    let height := header.blockHeight
    if height = 0 then some ⟨i, st, none⟩
    else
      let i := { i with tipHeader := some header, tip := height }
      if i.mode ≠ .default then some ⟨i, st, none⟩
      else
        match resolve st.chains (checkHeaderG header) with
        | none => none
        | some (some (k, _)) =>
          some ⟨{ i with blockchain := some k }, st, none⟩
        | some none =>
          match resolve st.chains (canConnectG header) with
          | none => none
          | some (some (k, c)) =>
            some ⟨{ i with blockchain := some k },
              { st with chains := setChain k { c with height := (height : Int) } st.chains }, none⟩
          | some none =>
            match maxChainHeight st.chains with
            | none => none
            | some tip =>
              if 0 ≤ tip then
                let probe := (min tip ((height : Int) - 1)).toNat
                let i := { i with mode := .backward, bad := height, badHeader := some header }
                some ⟨{ i with request := some probe }, st, some (.reqHeader probe)⟩
              else
                match lookupChain st.chains 0 with
                | none => none
                | some c0 =>
                  if c0.catchUp = none then
                    some ⟨{ i with mode := .catchUp, blockchain := some 0, request := some 0 },
                      { st with chains := setChain 0 { c0 with catchUp := some i.server } st.chains },
                      some (.reqHeader 0)⟩
                  else some ⟨i, st, none⟩

/-- Result of `on_block_headers`: interface, network state, issued request, and
whether the error path invoked `switch_to_random_interface`. -/
structure ChunkOut where
  iface : Iface
  net : NetSt
  action : Option HdrAction
  switchedRandom : Bool

/-- `Network.on_block_headers` (lines 900-933 of `network.py`).
`connectChunk idx hex` is the `blockchain.connect_chunk` collaborator oracle:
`none` when the chunk fails to connect, `some h` when it connects and leaves
the chain at height `h`.  The response carries `error` (its `code` field),
`result` (the hex payload) and `params` (`[start_height, count]`).  Paths on
which Python raises (reading `.get` of a `None` error, a `None` blockchain, or
removing an absent chunk index) return `none`. -/
def on_block_headers (connectChunk : Nat → String → Option Int) (chunkSize : Nat)
    (st : NetSt) (i : Iface) (error : Option Int) (result : Option String)
    (params : Option (List Nat)) : Option ChunkOut :=
  match error, result, params with
  | some code, _, ps =>
    if code = -101 then
      match i.blockchain, ps with
      | some bk, some (h :: _) =>
        match lookupChain st.chains bk with
        | none => none
        | some bc =>
          let idx := h / chunkSize
          if idx ∈ st.requestedChunks then
            let st := { st with chains := setChain bk { bc with catchUp := none } st.chains }
            some ⟨i, { st with requestedChunks := st.requestedChunks.erase idx }, none, true⟩
          else none
      | _, _ => none
    else some ⟨i, st, none, true⟩
  | none, none, _ => none
  | none, some _, none => none
  | none, some _, some [] => none
  | none, some hexdata, some (height :: _) =>
    let index := height / chunkSize
    if index * chunkSize ≠ height ∨ index ∉ st.requestedChunks then
      some ⟨i, st, none, false⟩
    else
      let st := { st with requestedChunks := st.requestedChunks.erase index }
      match i.blockchain with
      | none => none
      | some bk =>
        match lookupChain st.chains bk with
        | none => none
        | some bc =>
          match connectChunk index hexdata with
          | none => some ⟨i, connection_down i.server st, none, false⟩
          | some newHeight =>
            if newHeight < (i.tip : Int) then
              if index + 1 ∈ st.requestedChunks then
                some ⟨i, { st with chains := setChain bk { bc with height := newHeight } st.chains },
                  none, false⟩
              else
                let st := { st with chains := setChain bk { bc with height := newHeight } st.chains }
                some ⟨i, { st with requestedChunks := (index + 1) :: st.requestedChunks },
                  some (.reqChunk (index + 1)), false⟩
            else
              some ⟨{ i with mode := .default },
                { st with chains := setChain bk { bc with height := newHeight, catchUp := none } st.chains },
                none, false⟩

/-- One round of the binary-search loop of `on_get_header`, iterated with
explicit fuel.  While `bad ≠ good + 1` the engine probes
`(bad + good) / 2`; `found m` says whether the header at the probed height `m`
matched a known chain (`blockchain.check_header` truthy), which sets `good`,
otherwise `bad`.  Returns the number of rounds together with the final
`good`/`bad` bounds. -/
def binaryRoundsFuel (found : Nat → Bool) : Nat → Nat → Nat → Nat × Nat × Nat
  | 0, good, bad => (0, good, bad)
  | fuel + 1, good, bad =>
    if bad = good + 1 then (0, good, bad)
    else
      let m := (bad + good) / 2
      let r :=
        if found m then binaryRoundsFuel found fuel m bad
        else binaryRoundsFuel found fuel good m
      (r.1 + 1, r.2)

/-- The binary-search loop started from bounds `good < bad`: `bad - good` fuel
always suffices. -/
def binaryRounds (found : Nat → Bool) (good bad : Nat) : Nat × Nat × Nat :=
  binaryRoundsFuel found (bad - good) good bad

/-- The part of the `Network` state touched by `queue_request`: the message-id
counter, the active interface and the per-interface request queues (modelled as
one list tagged with the target interface). -/
structure QState where
  messageId : Nat
  interface : Option String
  queued : List (String × String × List String × Nat)

/-- `Network.queue_request` (lines 360-375 of `network.py`): with no explicit
interface it falls back to the active one, and with no active interface it
drops the request, returning `None` (here `none`) without touching any state. -/
def queue_request (method : String) (params : List String) (ifaceArg : Option String)
    (st : QState) : Option Nat × QState :=
  match ifaceArg with
  | some ifc =>
    (some st.messageId,
      { st with messageId := st.messageId + 1,
                queued := st.queued ++ [(ifc, method, params, st.messageId)] })
  | none =>
    match st.interface with
    | some cur =>
      (some st.messageId,
        { st with messageId := st.messageId + 1,
                  queued := st.queued ++ [(cur, method, params, st.messageId)] })
    | none => (none, st)

/-- `Network.get_server_height`: the active interface's reported tip, `0` when
there is no active interface. -/
def get_server_height (iface : Option Iface) : Nat :=
  match iface with
  | some i => i.tip
  | none => 0

/-- The return value of `Network.server_is_lagging` (lines 332-348): `True`
when the server height is falsy, otherwise `(lh - sh) > 1` where `lh` is the
local chain height.  (The side-effecting cleanup of invalid chains on the
lagging path does not affect the returned value and is not modelled.) -/
def server_is_lagging (iface : Option Iface) (localHeight : Int) : Bool :=
  let sh := get_server_height iface
  if sh = 0 then true
  else decide (localHeight - (sh : Int) > 1)

/-- Python `str.endswith`. -/
def strEndsWith (s suffix : String) : Bool :=
  suffix.data.isSuffixOf s.data

/-- Generic string-keyed association lookup (Python dict `.get`). -/
def alistGet {α : Type} : List (String × α) → String → Option α
  | [], _ => none
  | (k, v) :: rest, k' => if k' = k then some v else alistGet rest k'

/-- Generic string-keyed association store (Python dict assignment; updates
shadow earlier entries). -/
def alistSet {α : Type} (l : List (String × α)) (k : String) (v : α) : List (String × α) :=
  (k, v) :: l

/-- `Network.get_index` (lines 701-706): the canonical subscription/cache key
derived from the method and its identifying parameters.  `none` where Python
would raise `IndexError` (too few parameters for a contract-event key). -/
def get_index (method : String) (params : List String) : Option String :=
  if method = "blockchain.contract.event.subscribe" then
    match params with
    | p0 :: p1 :: p2 :: _ => some (method ++ ":" ++ p0 ++ ":" ++ p1 ++ ":" ++ p2)
    | _ => none
  else
    some (method ++ (match params with | [] => "" | p0 :: _ => ":" ++ p0))

/-- The `Network` state touched by `process_pending_sends`: the active
interface, the subscription table, the subscription response cache, the
unanswered-request table and the message-id counter.  Callbacks are opaque
identifiers. -/
structure RouterSt where
  interface : Option String
  subscriptions : List (String × List Nat)
  subCache : List (String × Nat)
  unanswered : List (Nat × String × List String × Nat)
  messageId : Nat

/-- The queueing path of a pending send: `queue_request` on the active
interface and registration in the unanswered-request table (line 800-801). -/
def queueSend (st : RouterSt) (method : String) (params : List String) (callback : Nat) :
    RouterSt :=
  { st with messageId := st.messageId + 1
            unanswered := st.unanswered ++ [(st.messageId, method, params, callback)] }

/-- The body of the `process_pending_sends` loop for one `(method, params)`
message of a send (lines 784-801): subscription calls register the callback,
then a cached response short-circuits the request unless the method ends in
`contract.subscribe`.  Returns the updated state and the callbacks invoked
with a cached response. -/
def process_send_one (st : RouterSt) (method : String) (params : List String)
    (callback : Nat) : Option (RouterSt × List (Nat × Nat)) :=
  if strEndsWith method ".subscribe" then
    match get_index method params with
    | none => none
    | some k =>
      let l := (alistGet st.subscriptions k).getD []
      let l := if callback ∈ l then l else l ++ [callback]
      let st := { st with subscriptions := alistSet st.subscriptions k l }
      match alistGet st.subCache k with
      | some r =>
        if strEndsWith method "contract.subscribe" = false then some (st, [(callback, r)])
        else some (queueSend st method params callback, [])
      | none => some (queueSend st method params callback, [])
  else some (queueSend st method params callback, [])

/-- Fold of `process_send_one` over the messages of one queued send. -/
def process_send_batch (acc : Option (RouterSt × List (Nat × Nat)))
    (msgs : List (String × List String)) (cb : Nat) : Option (RouterSt × List (Nat × Nat)) :=
  msgs.foldl
    (fun a m =>
      match a with
      | none => none
      | some (st, outs) =>
        match process_send_one st m.1 m.2 cb with
        | none => none
        | some (st', outs') => some (st', outs ++ outs'))
    acc

/-- `Network.process_pending_sends` (lines 772-801): a no-op without an active
interface, otherwise each pending `(messages, callback)` send is processed in
order. -/
def process_pending_sends (pending : List (List (String × List String) × Nat))
    (st : RouterSt) : Option (RouterSt × List (Nat × Nat)) :=
  match st.interface with
  | none => some (st, [])
  | some _ => pending.foldl (fun a p => process_send_batch a p.1 p.2) (some (st, []))

/-- The `Network` state touched by `send_subscriptions`: the response cache,
the unanswered-request table, the standing subscription sets and the
message-id counter. -/
structure SubState where
  subCache : List (String × Nat)
  unanswered : List (Nat × String × List String × Nat)
  subscribedAddresses : List String
  subscribedTokens : List (String × String × String)
  messageId : Nat

/-- The unanswered-request resend loop of `send_subscriptions` (lines
384-388): each entry is queued again under a fresh message id.  Returns the
next free id, the rebuilt unanswered table, and the queued requests. -/
def resendUnanswered (reqs : List (String × List String × Nat)) (mid : Nat) :
    Nat × List (Nat × String × List String × Nat) × List (String × List String) :=
  match reqs with
  | [] => (mid, [], [])
  | (m, ps, cb) :: rest =>
    let r := resendUnanswered rest (mid + 1)
    (r.1, (mid, m, ps, cb) :: r.2.1, (m, ps) :: r.2.2)

/-- `Network.send_subscriptions` (lines 377-400): clear the response cache,
resend all unanswered requests, then queue the banner, fee-estimate (one per
target in `bitcoin.FEE_TARGETS`, a collaborator constant) and relay-fee
requests and one subscription per subscribed scripthash and token tuple.
Returns the new state and the list of requests queued on the active
interface. -/
def send_subscriptions (feeTargets : List Nat) (st : SubState) :
    SubState × List (String × List String) :=
  let r := resendUnanswered (st.unanswered.map (fun e => e.2)) st.messageId
  let q := r.2.2 ++ [("server.banner", ([] : List String))]
      ++ feeTargets.map (fun t => ("blockchain.estimatefee", [toString t]))
      ++ [("blockchain.relayfee", ([] : List String))]
      ++ st.subscribedAddresses.map (fun h => ("blockchain.scripthash.subscribe", [h]))
      ++ st.subscribedTokens.map (fun t => ("blockchain.contract.event.subscribe", [t.1, t.2.1, t.2.2]))
  let midF := r.1 + 2 + feeTargets.length + st.subscribedAddresses.length + st.subscribedTokens.length
  ({ st with subCache := [], unanswered := r.2.1, messageId := midF }, q)

/-- Multiplicity of a `(method, params)` request in a queued-request list. -/
def countReq (x : String × List String) : List (String × List String) → Nat
  | [] => 0
  | y :: rest => (if y = x then 1 else 0) + countReq x rest

/-- The `Network` state touched by `switch_to_interface`. -/
structure SwitchSt where
  interfaces : List String
  currentServer : Option String
  defaultServer : String
  sub : SubState

/-- `Network.switch_to_interface` (lines 598-629): adopt `server` as the
active interface when it is connected and differs from the current one,
closing the old interface and resending subscriptions; when it is not yet
connected, drop the active interface and start a connection (the `Connection`
thread itself is a collaborator and not modelled).  Returns the new state and
the requests queued by `send_subscriptions`. -/
def switch_to_interface (feeTargets : List Nat) (server : String) (st : SwitchSt) :
    SwitchSt × List (String × List String) :=
  let st := { st with defaultServer := server }
  if server ∉ st.interfaces then ({ st with currentServer := none }, [])
  else if st.currentServer = some server then (st, [])
  else
    let interfaces :=
      match st.currentServer with
      | some old => st.interfaces.erase old
      | none => st.interfaces
    let r := send_subscriptions feeTargets st.sub
    ({ st with interfaces := interfaces, currentServer := some server, sub := r.1 }, r.2)

/-- The `Network` state touched by the server-selection and retry logic of
`maintain_sockets`. -/
structure MaintSt where
  disconnected : List String
  interfaces : List String
  connecting : List String
  numServer : Nat
  defaultServer : String
  autoConnect : Bool
  connected : Bool
  nodesRetryTime : Int
  serverRetryTime : Int

/-- `pick_random_server` (lines 95-101): a random choice among the eligible
servers not in the exclusion set.  `choose` is the `random.choice` oracle. -/
def pick_random_server (eligible : List String) (exclude : List String)
    (choose : List String → Option String) : Option String :=
  choose (eligible.filter (fun s => s ∉ exclude))

/-- `Network.start_interface` (lines 448-455): begin connecting to a server
not already connected or connecting. -/
def start_interface (server : String) (st : MaintSt) : MaintSt :=
  if server ∉ st.interfaces ∧ server ∉ st.connecting then
    { st with connecting := server :: st.connecting }
  else st

/-- `Network.start_random_interface` (lines 457-462): pick a random server
excluding the disconnected set and the connected interfaces, and start it.
Returns the new state and the picked server. -/
def start_random_interface (choose : List String → Option String) (servers : List String)
    (st : MaintSt) : MaintSt × Option String :=
  let exclude := st.disconnected ++ st.interfaces
  match pick_random_server servers exclude choose with
  | some server => (start_interface server st, some server)
  | none => (st, none)

/-- The node-maintenance step of `maintain_sockets` (lines 866-874): when
below the target interface count, start a random interface, and after
`NODES_RETRY_INTERVAL` clear the whole disconnected set.  Returns the new
state and the server picked (if any). -/
def maintain_sockets_nodes (choose : List String → Option String) (servers : List String)
    (now : Int) (st : MaintSt) : MaintSt × Option String :=
  if st.interfaces.length + st.connecting.length < st.numServer then
    let r := start_random_interface choose servers st
    if now - r.1.nodesRetryTime > NODES_RETRY_INTERVAL then
      ({ r.1 with disconnected := [], nodesRetryTime := now }, r.2)
    else r
  else (st, none)

/-- The main-interface step of `maintain_sockets` (lines 876-888): with
auto-connect off and the default server sitting in the disconnected set, the
default server is removed from the set once `SERVER_RETRY_INTERVAL` has
elapsed.  The `switch_to_random_interface` / `switch_to_interface` calls on
the other paths never touch the disconnected set. -/
def maintain_sockets_main (now : Int) (st : MaintSt) : MaintSt :=
  if st.connected then st
  else if st.autoConnect then st
  else if st.defaultServer ∈ st.disconnected then
    if now - st.serverRetryTime > SERVER_RETRY_INTERVAL then
      { st with disconnected := st.disconnected.erase st.defaultServer, serverRetryTime := now }
    else st
  else st

/-! ## Concrete instances used in witnesses and counterexamples -/

/-- A chain oracle with no marker and all collaborator checks failing. -/
def inertChain : Chain :=
  { catchUp := none, height := 0, checkHeader := fun _ => false, parentCheckH := fun _ => false,
    parentId := 0, canConnect := fun _ => false, canConnectNoHeight := fun _ => false }

/-- Concrete interface state for the C4 witness: backward mode awaiting height 5
with tip 9. -/
def c4iface : Iface :=
  { server := "s", mode := .backward, request := some 5, tip := 9, tipHeader := none,
    good := 0, bad := 8, badHeader := none, blockchain := none }

/-- Concrete interface state for the C1 witness: binary mode awaiting height 4. -/
def c1iface : Iface :=
  { server := "s", mode := .binary, request := some 4, tip := 9, tipHeader := none,
    good := 0, bad := 9, badHeader := none, blockchain := none }

/-- Concrete interface state for the C3 witness: default mode. -/
def c3iface : Iface :=
  { server := "s", mode := .default, request := none, tip := 0, tipHeader := none,
    good := 0, bad := 0, badHeader := none, blockchain := none }

/-- Concrete chain map for the C3 witness: a single chain of height 100 at
forkpoint 0. -/
def c3chains : List (Nat × Chain) := [(0, { inertChain with height := 100 })]

/-- Concrete router state for the C8 counterexample: a cached response exists
for the `blockchain.contract.subscribe` key. -/
def c8st : RouterSt :=
  { interface := some "s", subscriptions := [],
    subCache := [("blockchain.contract.subscribe:cc", 42)],
    unanswered := [], messageId := 5 }

/-- Concrete router state for the C8 witness: a cached response exists for a
scripthash subscription key. -/
def c8wit : RouterSt :=
  { interface := some "s", subscriptions := [],
    subCache := [("blockchain.scripthash.subscribe:aa", 42)],
    unanswered := [], messageId := 5 }

/-- Concrete switch state for the C5 counterexample: the subscription for
scripthash `aa` has been answered before (it is in `subscribed_addresses`) and
also sits unanswered in flight. -/
def c5st : SwitchSt :=
  { interfaces := ["a", "b"], currentServer := some "a", defaultServer := "a",
    sub := { subCache := [("blockchain.scripthash.subscribe:aa", 1)],
             unanswered := [(0, "blockchain.scripthash.subscribe", ["aa"], 9)],
             subscribedAddresses := ["aa"], subscribedTokens := [], messageId := 1 } }

/-- Concrete switch state for the C5 witness: no in-flight request duplicates
a standing subscription. -/
def c5wit : SwitchSt :=
  { interfaces := ["a", "b"], currentServer := some "a", defaultServer := "a",
    sub := { subCache := [("blockchain.scripthash.subscribe:aa", 1)],
             unanswered := [(0, "blockchain.transaction.get", ["ff"], 9)],
             subscribedAddresses := ["aa"],
             subscribedTokens := [("h1", "c1", "t1")], messageId := 1 } }

/-- Concrete maintenance state for C9: the default server `srv` sits in the
disconnected set, auto-connect is off and nothing is connected. -/
def c9st : MaintSt :=
  { disconnected := ["srv"], interfaces := [], connecting := [], numServer := 10,
    defaultServer := "srv", autoConnect := false, connected := false,
    nodesRetryTime := 0, serverRetryTime := 0 }

/-- Concrete interface for the C9 witness: backward mode awaiting height 0. -/
def c9iface : Iface :=
  { server := "down", mode := .backward, request := some 0, tip := 9, tipHeader := none,
    good := 0, bad := 8, badHeader := none, blockchain := none }

/-- Header at height 7 used by the C2 conflict scenario. -/
def c2hdr : Header := ⟨7, 1⟩

/-- The chain the C2 interface currently follows: it can connect the bad
header with the height check disabled. -/
def c2chain0 : Chain :=
  { inertChain with height := 6, canConnectNoHeight := fun _ => true }

/-- The existing fork at height 7 in the C2 scenario: another server (`s2`)
holds its `catch_up` marker, and both its own header check and its parent's
header check fail. -/
def c2branch : Chain :=
  { catchUp := some "s2", height := 10, checkHeader := fun _ => false,
    parentCheckH := fun _ => false, parentId := 0, canConnect := fun _ => false,
    canConnectNoHeight := fun _ => false }

/-- Chain map for the C2 scenario. -/
def c2net : NetSt := ⟨[(0, c2chain0), (7, c2branch)], [], []⟩

/-- Interface for the C2 scenario: server `s1` in binary mode with
`good = 6`, awaiting the response at height 7. -/
def c2iface : Iface :=
  { server := "s1", mode := .binary, request := some 7, tip := 100, tipHeader := none,
    good := 6, bad := 9, badHeader := none, blockchain := some 0 }

/-- The overwritten fork after the C2 conflict: rewritten at height 7 with the
marker stolen by `s1`. -/
def c2stolen : Chain := { c2branch with height := 7, catchUp := some "s1" }

/-- The full output of `on_get_header` in the C2 conflict scenario. -/
def c2out : GetHeaderOut :=
  ⟨{ server := "s1", mode := .catchUp, request := some 7, tip := 100, tipHeader := none,
     good := 6, bad := 7, badHeader := some c2hdr, blockchain := some 7 },
   { chains := setChain 7 c2stolen c2net.chains, disconnected := [], requestedChunks := [0] },
   some (.reqChunk 0)⟩

/-! ## Helper lemmas -/

/-- A server is always a member of the disconnected set after being added. -/
theorem mem_addServer_self (server : String) (l : List String) : server ∈ addServer server l := by
  unfold addServer
  split
  · assumption
  · exact List.mem_cons_self _ _

/-- Resolving the `None` result of a module-level collaborator call. -/
theorem resolve_none (chains : List (Nat × Chain)) : resolve chains none = some none := rfl

/-- Lookup after storing a chain under a key. -/
theorem lookupChain_setChain (k : Nat) (c : Chain) (l : List (Nat × Chain)) (k' : Nat) :
    lookupChain (setChain k c l) k' = if k' = k then some c else lookupChain l k' := rfl

/-- Lookup after the marker-clearing loop of `connection_down`. -/
theorem lookupChain_clearMarkers (srv : String) (l : List (Nat × Chain)) (k : Nat) :
    lookupChain (clearMarkers srv l) k = (lookupChain l k).map
      (fun c => if c.catchUp = some srv then { c with catchUp := none } else c) := by
  induction l with
  | nil => rfl
  | cons p rest ih =>
    simp only [clearMarkers, List.map_cons, lookupChain] at ih ⊢
    by_cases hk : k = p.1 <;> simp [hk, ih, clearMarkers]

/-- A chain found after marker clearing comes from a chain at the same key
with the same marker, or had its marker cleared. -/
theorem clearMarkers_lookup_back (srv : String) (l : List (Nat × Chain)) (k : Nat) (c' : Chain)
    (h : lookupChain (clearMarkers srv l) k = some c') :
    ∃ c0, lookupChain l k = some c0 ∧ (c'.catchUp = c0.catchUp ∨ c'.catchUp = none) := by
  rw [lookupChain_clearMarkers] at h
  cases hl : lookupChain l k with
  | none => rw [hl] at h; cases h
  | some c0 =>
    rw [hl] at h
    have hc : (if c0.catchUp = some srv then { c0 with catchUp := none } else c0) = c' :=
      Option.some.inj h
    refine ⟨c0, rfl, ?_⟩
    rw [← hc]
    by_cases hcu : c0.catchUp = some srv <;> simp [hcu]

/-- After `connection_down` no chain carries the server's marker. -/
theorem connection_down_clears (srv : String) (st : NetSt) (k : Nat) (c : Chain)
    (h : lookupChain (connection_down srv st).chains k = some c) : c.catchUp ≠ some srv := by
  have h2 : lookupChain (clearMarkers srv st.chains) k = some c := h
  rw [lookupChain_clearMarkers] at h2
  cases hl : lookupChain st.chains k with
  | none => rw [hl] at h2; cases h2
  | some c0 =>
    rw [hl] at h2
    have hc : (if c0.catchUp = some srv then { c0 with catchUp := none } else c0) = c :=
      Option.some.inj h2
    rw [← hc]
    by_cases hcu : c0.catchUp = some srv <;> simp [hcu]

/-- Two lookups of the same key agree. -/
theorem lookup_unchanged_eq {l : List (Nat × Chain)} {k : Nat} {c c' : Chain}
    (h1 : lookupChain l k = some c) (h2 : lookupChain l k = some c') : c = c' :=
  Option.some.inj (h1 ▸ h2)

/-- `binaryUpdate` never changes the server of the interface. -/
theorem binaryUpdate_server (chainOpt : Option (Nat × Chain)) (height : Nat) (header : Header)
    (i : Iface) : (binaryUpdate chainOpt height header i).server = i.server := by
  cases chainOpt <;> rfl

/-- Markers untouched by `connection_down` are preserved. -/
theorem connection_down_preserves (srv : String) (st : NetSt) (k : Nat) (c : Chain)
    (h : lookupChain st.chains k = some c) (hne : c.catchUp ≠ some srv) :
    lookupChain (connection_down srv st).chains k = some c := by
  have h2 : lookupChain (clearMarkers srv st.chains) k =
      (lookupChain st.chains k).map
        (fun c => if c.catchUp = some srv then { c with catchUp := none } else c) :=
    lookupChain_clearMarkers srv st.chains k
  rw [h] at h2
  simpa [hne] using h2

/-- Marker guard for the shared `else` part of the backward branch: no marker
is acquired at all. -/
theorem backwardElse_marker_guard (st : NetSt) (i : Iface) (header : Header) (height : Nat)
    (chainOpt : Option (Nat × Chain)) (k : Nat) (c c' : Chain) (s : String)
    (hpre : lookupChain st.chains k = some c)
    (hpost : lookupChain (backwardElse st i header height chainOpt).1.chains k = some c')
    (hs : c'.catchUp = some s) :
    c.catchUp = some s ∨ c.catchUp = none := by
  unfold backwardElse at hpost
  cases chainOpt with
  | some kc =>
    left
    rw [lookup_unchanged_eq hpre hpost]
    exact hs
  | none =>
    by_cases hz : height = 0
    · rw [if_pos hz] at hpost
      obtain ⟨c0, hl, hrel⟩ := clearMarkers_lookup_back i.server st.chains k c' hpost
      obtain rfl := lookup_unchanged_eq hl hpre
      rcases hrel with hrel | hrel
      · left
        rw [← hrel]
        exact hs
      · rw [hrel] at hs
        cases hs
    · rw [if_neg hz] at hpost
      left
      rw [lookup_unchanged_eq hpre hpost]
      exact hs

/-- Marker guard for the backward branch of `on_get_header`: a marker is
acquired only on a chain whose marker was free. -/
theorem backwardRes_marker_guard (st : NetSt) (i : Iface) (header : Header) (height : Nat)
    (chainOpt canC : Option (Nat × Chain))
    (hcanC : ∀ kc, canC = some kc → lookupChain st.chains kc.1 = some kc.2)
    (k : Nat) (c c' : Chain) (s : String)
    (hpre : lookupChain st.chains k = some c)
    (hpost : lookupChain (backwardRes st i header height chainOpt canC).1.chains k = some c')
    (hs : c'.catchUp = some s) :
    c.catchUp = some s ∨ c.catchUp = none := by
  cases canC with
  | none =>
    rw [show backwardRes st i header height chainOpt none =
        backwardElse st i header height chainOpt from rfl] at hpost
    exact backwardElse_marker_guard st i header height chainOpt k c c' s hpre hpost hs
  | some kc =>
    obtain ⟨ck, c0⟩ := kc
    simp only [backwardRes] at hpost
    by_cases hcu : c0.catchUp = none
    · rw [if_pos hcu] at hpost
      rw [lookupChain_setChain] at hpost
      by_cases hk : k = ck
      · subst hk
        right
        have hc0 : c0 = c := lookup_unchanged_eq (hcanC (k, c0) rfl) hpre
        rw [← hc0]
        exact hcu
      · rw [if_neg hk] at hpost
        left
        rw [lookup_unchanged_eq hpre hpost]
        exact hs
    · rw [if_neg hcu] at hpost
      exact backwardElse_marker_guard st i header height chainOpt k c c' s hpre hpost hs

/-- Marker guard for the catch-up branch of `on_get_header`: markers are only
cleared or left alone. -/
theorem catchUpRes_marker_guard (st : NetSt) (i : Iface) (header : Header) (height : Nat)
    (r : GHRes) (h : catchUpRes st i header height = some r)
    (k : Nat) (c c' : Chain) (s : String)
    (hpre : lookupChain st.chains k = some c)
    (hpost : lookupChain r.1.chains k = some c')
    (hs : c'.catchUp = some s) :
    c.catchUp = some s ∨ c.catchUp = none := by
  cases hbk : i.blockchain with
  | none => simp [catchUpRes, hbk] at h
  | some bk =>
    simp only [catchUpRes, hbk] at h
    cases hll : lookupChain st.chains bk with
    | none => simp only [hll] at h; cases h
    | some c0 =>
      simp only [hll] at h
      by_cases hcc : c0.canConnect header = true
      · rw [if_pos hcc] at h
        by_cases hlt : height < i.tip
        · rw [if_pos hlt] at h
          obtain rfl := Option.some.inj h
          rw [lookupChain_setChain] at hpost
          by_cases hk : k = bk
          · rw [if_pos hk] at hpost
            obtain rfl := Option.some.inj hpost
            subst hk
            left
            rw [lookup_unchanged_eq hpre hll]
            exact hs
          · rw [if_neg hk] at hpost
            left
            rw [lookup_unchanged_eq hpre hpost]
            exact hs
        · rw [if_neg hlt] at h
          obtain rfl := Option.some.inj h
          rw [lookupChain_setChain] at hpost
          by_cases hk : k = bk
          · rw [if_pos hk] at hpost
            obtain rfl := Option.some.inj hpost
            cases hs
          · rw [if_neg hk] at hpost
            left
            rw [lookup_unchanged_eq hpre hpost]
            exact hs
      · rw [if_neg hcc] at h
        obtain rfl := Option.some.inj h
        left
        rw [lookup_unchanged_eq hpre hpost]
        exact hs

/-- Marker guard for the binary branch of `on_get_header`: a marker is
acquired on a chain whose marker was free, except in the forkpoint-conflict
overwrite, where the existing fork fails both the `check_header` and the
parent `check_header` tests and its marker is handed to this server. -/
theorem binaryRes_marker_guard (forkOracle : Nat → Header → Chain) (st : NetSt) (i : Iface)
    (header : Header) (height : Nat) (chainOpt : Option (Nat × Chain)) (r : GHRes)
    (h : binaryRes forkOracle st i header height chainOpt = some r)
    (k : Nat) (c c' : Chain) (s : String)
    (hpre : lookupChain st.chains k = some c)
    (hpost : lookupChain r.1.chains k = some c')
    (hs : c'.catchUp = some s) :
    c.catchUp = some s ∨ c.catchUp = none ∨
      (s = i.server ∧ ∃ bh, c.checkHeader bh = false ∧ c.parentCheckH header = false) := by
  simp only [binaryRes] at h
  by_cases hne : (binaryUpdate chainOpt height header i).bad
      ≠ (binaryUpdate chainOpt height header i).good + 1
  · rw [if_pos hne] at h
    obtain rfl := Option.some.inj h
    left
    rw [lookup_unchanged_eq hpre hpost]
    exact hs
  · rw [if_neg hne] at h
    cases hbk : (binaryUpdate chainOpt height header i).blockchain with
    | none => simp only [hbk] at h; cases h
    | some bk =>
      simp only [hbk] at h
      cases hll : lookupChain st.chains bk with
      | none => simp only [hll] at h; cases h
      | some bc =>
        simp only [hll] at h
        cases hbh : (binaryUpdate chainOpt height header i).badHeader with
        | none => simp only [hbh] at h; cases h
        | some bh =>
          simp only [hbh] at h
          by_cases hcn : bc.canConnectNoHeight bh = false
          · rw [if_pos hcn] at h
            obtain rfl := Option.some.inj h
            obtain ⟨c0, hl, hrel⟩ := clearMarkers_lookup_back
              (binaryUpdate chainOpt height header i).server st.chains k c' hpost
            obtain rfl := lookup_unchanged_eq hl hpre
            rcases hrel with hrel | hrel
            · left
              rw [← hrel]
              exact hs
            · rw [hrel] at hs
              cases hs
          · rw [if_neg hcn] at h
            cases hbr : lookupChain st.chains (binaryUpdate chainOpt height header i).bad with
            | some branch =>
              simp only [hbr] at h
              by_cases hch : branch.checkHeader bh = true
              · rw [if_pos hch] at h
                obtain rfl := Option.some.inj h
                left
                rw [lookup_unchanged_eq hpre hpost]
                exact hs
              · rw [if_neg hch] at h
                by_cases hpar : branch.parentCheckH header = true
                · rw [if_pos hpar] at h
                  obtain rfl := Option.some.inj h
                  left
                  rw [lookup_unchanged_eq hpre hpost]
                  exact hs
                · rw [if_neg hpar] at h
                  obtain rfl := Option.some.inj h
                  rw [lookupChain_setChain] at hpost
                  by_cases hk : k = (binaryUpdate chainOpt height header i).bad
                  · rw [if_pos hk] at hpost
                    obtain rfl := Option.some.inj hpost
                    rw [hk] at hpre
                    obtain rfl := lookup_unchanged_eq hpre hbr
                    right
                    right
                    have hsv : s = i.server :=
                      ((Option.some.inj hs).symm).trans (binaryUpdate_server chainOpt height header i)
                    exact ⟨hsv, bh, by simpa using hch, by simpa using hpar⟩
                  · rw [if_neg hk] at hpost
                    left
                    rw [lookup_unchanged_eq hpre hpost]
                    exact hs
            | none =>
              simp only [hbr] at h
              by_cases hgt : bc.height > ((binaryUpdate chainOpt height header i).good : Int)
              · rw [if_pos hgt] at h
                by_cases hch : bc.checkHeader bh = false
                · rw [if_pos hch] at h
                  obtain rfl := Option.some.inj h
                  rw [lookupChain_setChain] at hpost
                  by_cases hk : k = (binaryUpdate chainOpt height header i).bad
                  · rw [if_pos hk] at hpost
                    rw [hk, hbr] at hpre
                    cases hpre
                  · rw [if_neg hk] at hpost
                    left
                    rw [lookup_unchanged_eq hpre hpost]
                    exact hs
                · rw [if_neg hch] at h
                  obtain rfl := Option.some.inj h
                  left
                  rw [lookup_unchanged_eq hpre hpost]
                  exact hs
              · rw [if_neg hgt] at h
                by_cases heq : bc.height = ((binaryUpdate chainOpt height header i).good : Int)
                · rw [if_pos heq] at h
                  by_cases hfree : bc.catchUp = none ∧
                      bc.height < ((binaryUpdate chainOpt height header i).tip : Int)
                  · rw [if_pos hfree] at h
                    obtain rfl := Option.some.inj h
                    rw [lookupChain_setChain] at hpost
                    by_cases hk : k = bk
                    · rw [if_pos hk] at hpost
                      rw [hk] at hpre
                      obtain rfl := lookup_unchanged_eq hpre hll
                      right
                      left
                      exact hfree.1
                    · rw [if_neg hk] at hpost
                      left
                      rw [lookup_unchanged_eq hpre hpost]
                      exact hs
                  · rw [if_neg hfree] at h
                    obtain rfl := Option.some.inj h
                    left
                    rw [lookup_unchanged_eq hpre hpost]
                    exact hs
                · rw [if_neg heq] at h
                  cases h

/-- A chain pair produced by `resolve` really is in the chain map. -/
theorem resolve_sound (chains : List (Nat × Chain)) (o : Option Nat)
    (res : Option (Nat × Chain)) (h : resolve chains o = some res) :
    ∀ kc, res = some kc → lookupChain chains kc.1 = some kc.2 := by
  intro kc hkc
  subst hkc
  cases o with
  | none => cases Option.some.inj h
  | some k0 =>
    simp only [resolve] at h
    cases hl : lookupChain chains k0 with
    | none => simp only [hl] at h; cases h
    | some cc =>
      simp only [hl] at h
      obtain hkc2 := Option.some.inj h
      cases hkc2
      exact hl

/-- The tail of `on_get_header` either leaves the chain map alone or clears
the markers of the interface's server. -/
theorem finishGH_lookup_back (chunkSize : Nat) (r : GHRes) (k : Nat) (c' : Chain)
    (hpost : lookupChain (finishGH chunkSize r).net.chains k = some c') :
    ∃ c1, lookupChain r.1.chains k = some c1 ∧
      (c'.catchUp = c1.catchUp ∨ c'.catchUp = none) := by
  obtain ⟨st, i, next⟩ := r
  cases next with
  | none => exact ⟨c', hpost, Or.inl rfl⟩
  | some n =>
    simp only [finishGH] at hpost
    by_cases hlt : n < 0
    · rw [if_pos hlt] at hpost
      obtain ⟨c0, hl, hrel⟩ := clearMarkers_lookup_back i.server st.chains k c' hpost
      exact ⟨c0, hl, hrel⟩
    · rw [if_neg hlt] at hpost
      by_cases hcu : i.mode = Mode.catchUp ∧ (i.tip : Int) > n + 50
      · rw [if_pos hcu] at hpost
        by_cases hidx : n.toNat / chunkSize ∈ st.requestedChunks
        · rw [if_pos hidx] at hpost
          exact ⟨c', hpost, Or.inl rfl⟩
        · rw [if_neg hidx] at hpost
          exact ⟨c', hpost, Or.inl rfl⟩
      · rw [if_neg hcu] at hpost
        exact ⟨c', hpost, Or.inl rfl⟩

/-! ## Claim C10: `queue_request` with no interface -/

/-- Claim C10: for every call to `queue_request` with no interface argument
while no active interface is set, the function returns `None` without
incrementing the message-id counter and without queuing anything on any
interface: the request is silently dropped. -/
theorem queue_request_drops_without_interface (method : String) (params : List String)
    (st : QState) (h : st.interface = none) :
    queue_request method params none st = (none, st) := by
  simp [queue_request, h]

/-- Witness for C10 at a concrete state. -/
theorem queue_request_drops_witness :
    queue_request "blockchain.scripthash.subscribe" ["ab"] none
        { messageId := 5, interface := none, queued := [] } =
      (none, { messageId := 5, interface := none, queued := [] }) :=
  queue_request_drops_without_interface "blockchain.scripthash.subscribe" ["ab"]
    { messageId := 5, interface := none, queued := [] } rfl

/-! ## Claim C6: `server_is_lagging` -/

/-- Claim C6: `server_is_lagging()` returns `True` iff the active server's
reported height is `0` (including when no active interface exists, where
`get_server_height` yields `0`) or the local chain height exceeds the server
height by more than `1`; a server exactly one block behind is not lagging. -/
theorem server_is_lagging_iff (iface : Option Iface) (lh : Int) :
    (server_is_lagging iface lh = true ↔
      get_server_height iface = 0 ∨ lh - (get_server_height iface : Int) > 1) ∧
    get_server_height none = 0 ∧
    (∀ i : Iface, iface = some i → i.tip ≠ 0 → lh = (i.tip : Int) + 1 →
      server_is_lagging iface lh = false) := by
  refine ⟨?_, rfl, ?_⟩
  · by_cases h : get_server_height iface = 0 <;> simp [server_is_lagging, h]
  · intro i hi htip hlh
    subst hi
    simp only [server_is_lagging, get_server_height, if_neg htip]
    rw [hlh]
    simp

/-- Witness for C6: a server one block behind is not lagging. -/
theorem server_is_lagging_witness :
    server_is_lagging
      (some { server := "a", mode := .default, request := none, tip := 10, tipHeader := none,
              good := 0, bad := 0, badHeader := none, blockchain := none }) 11 = false :=
  (server_is_lagging_iff _ 11).2.2 _ rfl (by decide) (by norm_num)

/-! ## Claim C7: unsolicited or misaligned chunks are ignored -/

/-- Claim C7: a header-chunk response without an error whose start height is
not a multiple of the chunk size, or whose chunk index is not outstanding in
`requested_chunks`, makes `on_block_headers` return without mutating any
blockchain, without tearing down the interface and without changing the sync
mode. -/
theorem on_block_headers_ignores_unsolicited
    (connectChunk : Nat → String → Option Int) (chunkSize : Nat) (st : NetSt) (i : Iface)
    (hexdata : String) (height : Nat) (rest : List Nat)
    (hbad : height / chunkSize * chunkSize ≠ height ∨ height / chunkSize ∉ st.requestedChunks) :
    on_block_headers connectChunk chunkSize st i none (some hexdata) (some (height :: rest)) =
      some ⟨i, st, none, false⟩ := by
  simp [on_block_headers, hbad]

/-- Witness for C7: a chunk at a misaligned start height is ignored. -/
theorem on_block_headers_ignores_witness :
    on_block_headers (fun _ _ => none) 2016
        ⟨[], [], [0]⟩
        { server := "a", mode := .catchUp, request := none, tip := 5000, tipHeader := none,
          good := 0, bad := 0, badHeader := none, blockchain := none }
        none (some "beef") (some [7, 2016]) =
      some ⟨{ server := "a", mode := .catchUp, request := none, tip := 5000, tipHeader := none,
              good := 0, bad := 0, badHeader := none, blockchain := none },
            ⟨[], [], [0]⟩, none, false⟩ :=
  on_block_headers_ignores_unsolicited (fun _ _ => none) 2016 ⟨[], [], [0]⟩ _ "beef" 7 [2016]
    (Or.inl (by decide))

/-! ## Claim C4: backward-mode responses -/

/-- Claim C4: a backward-mode header response at height `h` that neither
connects to a chain with a free `catch_up` marker nor matches a known chain
makes `on_get_header` record `bad = h` and the bad header and request height
`max(0, tip - 2*(tip - h))` when `h > 0`; when `h = 0` the interface is torn
down through `connection_down` and no further header request is issued. -/
theorem backward_probe_or_teardown
    (checkHeaderG canConnectG : Header → Option Nat) (forkOracle : Nat → Header → Chain)
    (chunkSize : Nat) (st : NetSt) (i : Iface) (header : Header) (canC : Option (Nat × Chain))
    (hmode : i.mode = .backward)
    (hreq : i.request = some header.blockHeight)
    (hchk : checkHeaderG header = none)
    (hcc : resolve st.chains (canConnectG header) = some canC)
    (hbusy : ∀ k c, canC = some (k, c) → c.catchUp ≠ none) :
    (header.blockHeight ≠ 0 →
      ∃ out, on_get_header checkHeaderG canConnectG forkOracle chunkSize st i (some header) = some out ∧
        out.iface.bad = header.blockHeight ∧
        out.iface.badHeader = some header ∧
        out.net = st ∧
        out.action = some (.reqHeader
          (max 0 ((i.tip : Int) - 2 * ((i.tip : Int) - (header.blockHeight : Int)))).toNat)) ∧
    (header.blockHeight = 0 →
      ∃ out, on_get_header checkHeaderG canConnectG forkOracle chunkSize st i (some header) = some out ∧
        i.server ∈ out.net.disconnected ∧ out.action = none) := by
  have hnext : ¬ (max 0 ((i.tip : Int) - 2 * ((i.tip : Int) - (header.blockHeight : Int))) < 0) :=
    not_lt.mpr (le_max_left 0 _)
  have hback : i.mode ≠ Mode.catchUp := by rw [hmode]; intro hco; cases hco
  constructor
  · intro hpos
    cases canC with
    | none =>
      simp [on_get_header, hreq, hchk, resolve_none, hcc, hmode, backwardRes,
        backwardElse, hpos, finishGH, hnext, hback]
    | some kc =>
      obtain ⟨ck, c⟩ := kc
      have hne := hbusy ck c rfl
      simp [on_get_header, hreq, hchk, resolve_none, hcc, hmode, backwardRes,
        backwardElse, hne, hpos, finishGH, hnext, hback]
  · intro hzero
    cases canC with
    | none =>
      simp [on_get_header, hreq, hchk, resolve_none, hcc, hmode, backwardRes,
        backwardElse, hzero, finishGH, connection_down, mem_addServer_self]
    | some kc =>
      obtain ⟨ck, c⟩ := kc
      have hne := hbusy ck c rfl
      simp [on_get_header, hreq, hchk, resolve_none, hcc, hmode, backwardRes,
        backwardElse, hne, hzero, finishGH, connection_down, mem_addServer_self]

/-- Witness for C4: a backward response at height 5 with tip 9 probes
`max(0, 9 - 2*(9 - 5)) = 1`. -/
theorem backward_probe_witness :
    ∃ out, on_get_header (fun _ => none) (fun _ => none) (fun _ _ => inertChain) 2016
        ⟨[], [], []⟩ c4iface (some ⟨5, 0⟩) = some out ∧
      out.iface.bad = 5 ∧
      out.iface.badHeader = some ⟨5, 0⟩ ∧
      out.net = (⟨[], [], []⟩ : NetSt) ∧
      out.action = some (.reqHeader (max 0 ((c4iface.tip : Int) - 2 * ((c4iface.tip : Int) - (5 : Int)))).toNat) :=
  (backward_probe_or_teardown (fun _ => none) (fun _ => none) (fun _ _ => inertChain) 2016
    ⟨[], [], []⟩ c4iface ⟨5, 0⟩ none rfl rfl rfl rfl (fun k c h => nomatch h)).1 (by decide)

/-! ## Claim C3: unconnected tip notification in default mode -/

/-- Claim C3: a default-mode tip notification whose header neither matches nor
connects to any known chain sends the interface into backward mode with
`bad` set to the announced height and a probe at
`min(best_known_height, announced_height - 1)` when the best known chain
height is non-negative; with no chain height it enters catch-up from height 0
on the genesis chain, but only when that chain's `catch_up` marker is free. -/
theorem notify_header_backward_or_catchup
    (checkHeaderG canConnectG : Header → Option Nat) (st : NetSt) (i : Iface)
    (header : Header) (mh : Int)
    (hmode : i.mode = .default)
    (hh : header.blockHeight ≠ 0)
    (hchk : checkHeaderG header = none)
    (hcan : canConnectG header = none)
    (hmax : maxChainHeight st.chains = some mh) :
    (0 ≤ mh →
      ∃ out, on_notify_header checkHeaderG canConnectG st i (some header) = some out ∧
        out.iface.mode = .backward ∧
        out.iface.bad = header.blockHeight ∧
        out.iface.badHeader = some header ∧
        out.action = some (.reqHeader (min mh ((header.blockHeight : Int) - 1)).toNat)) ∧
    (mh < 0 → ∀ c0, lookupChain st.chains 0 = some c0 →
      (c0.catchUp = none →
        ∃ out, on_notify_header checkHeaderG canConnectG st i (some header) = some out ∧
          out.iface.mode = .catchUp ∧
          out.iface.blockchain = some 0 ∧
          (lookupChain out.net.chains 0).map Chain.catchUp = some (some i.server) ∧
          out.action = some (.reqHeader 0)) ∧
      (c0.catchUp ≠ none →
        ∃ out, on_notify_header checkHeaderG canConnectG st i (some header) = some out ∧
          out.iface.mode = .default ∧ out.net = st ∧ out.action = none)) := by
  constructor
  · intro hpos
    have hnotlt : ¬ mh < 0 := not_lt.mpr hpos
    simp [on_notify_header, hh, hmode, hchk, hcan, resolve_none, hmax, hnotlt, hpos]
  · intro hneg c0 hc0
    have hnotle : ¬ 0 ≤ mh := not_le.mpr hneg
    constructor
    · intro hfree
      simp [on_notify_header, hh, hmode, hchk, hcan, resolve_none, hmax, hnotle, hc0, hfree,
        setChain, lookupChain]
    · intro hbusy
      simp [on_notify_header, hh, hmode, hchk, hcan, resolve_none, hmax, hnotle, hc0, hbusy,
        hmode]

/-- Witness for C3: with a known chain at height 100, a stranger header at
height 50 sends the interface backward probing height `min(100, 49) = 49`. -/
theorem notify_header_backward_witness :
    ∃ out, on_notify_header (fun _ => none) (fun _ => none) ⟨c3chains, [], []⟩ c3iface
        (some ⟨50, 0⟩) = some out ∧
      out.iface.mode = .backward ∧
      out.iface.bad = 50 ∧
      out.iface.badHeader = some ⟨50, 0⟩ ∧
      out.action = some (.reqHeader (min (100 : Int) ((50 : Int) - 1)).toNat) :=
  (notify_header_backward_or_catchup (fun _ => none) (fun _ => none) ⟨c3chains, [], []⟩
    c3iface ⟨50, 0⟩ 100 rfl (by decide) rfl rfl rfl).1 (by norm_num)

/-! ## Claim C1: binary bisection -/

/-- With `bad - good ≤ fuel + 1` rounds of fuel, the binary-search loop from
bounds `good < bad` terminates with `bad = good + 1` in at most
`⌈log2 (bad - good)⌉` rounds. -/
theorem binaryRoundsFuel_spec (found : Nat → Bool) :
    ∀ fuel good bad, good < bad → bad - good ≤ fuel + 1 →
      (binaryRoundsFuel found fuel good bad).2.2 = (binaryRoundsFuel found fuel good bad).2.1 + 1 ∧
      (binaryRoundsFuel found fuel good bad).1 ≤ Nat.clog 2 (bad - good) := by
  intro fuel
  induction fuel with
  | zero =>
    intro good bad hlt hle
    have heq : bad = good + 1 := by omega
    simp [binaryRoundsFuel, heq]
  | succ fuel ih =>
    intro good bad hlt hle
    by_cases heq : bad = good + 1
    · simp [binaryRoundsFuel, heq]
    · have h2 : good + 2 ≤ bad := by omega
      have hgap2 : 2 ≤ bad - good := by omega
      have hclog : Nat.clog 2 (bad - good) = Nat.clog 2 ((bad - good + 1) / 2) + 1 :=
        Nat.clog_of_two_le one_lt_two hgap2
      cases hfound : found ((bad + good) / 2) with
      | true =>
        have hm : (bad + good) / 2 < bad := by omega
        have hfuel : bad - (bad + good) / 2 ≤ fuel + 1 := by omega
        have hmono : Nat.clog 2 (bad - (bad + good) / 2) ≤ Nat.clog 2 ((bad - good + 1) / 2) :=
          Nat.clog_mono_right 2 (by omega)
        obtain ⟨hterm, hcount⟩ := ih ((bad + good) / 2) bad hm hfuel
        refine ⟨?_, ?_⟩
        · simpa [binaryRoundsFuel, heq, hfound] using hterm
        · have : (binaryRoundsFuel found (fuel + 1) good bad).1 =
              (binaryRoundsFuel found fuel ((bad + good) / 2) bad).1 + 1 := by
            simp [binaryRoundsFuel, heq, hfound]
          omega
      | false =>
        have hm : good < (bad + good) / 2 := by omega
        have hfuel : (bad + good) / 2 - good ≤ fuel + 1 := by omega
        have hmono : Nat.clog 2 ((bad + good) / 2 - good) ≤ Nat.clog 2 ((bad - good + 1) / 2) :=
          Nat.clog_mono_right 2 (by omega)
        obtain ⟨hterm, hcount⟩ := ih good ((bad + good) / 2) hm hfuel
        refine ⟨?_, ?_⟩
        · simpa [binaryRoundsFuel, heq, hfound] using hterm
        · have : (binaryRoundsFuel found (fuel + 1) good bad).1 =
              (binaryRoundsFuel found fuel good ((bad + good) / 2)).1 + 1 := by
            simp [binaryRoundsFuel, heq, hfound]
          omega

/-- Claim C1 (amended): in binary mode, `on_get_header` requests height
`(bad + good) / 2` whenever `bad ≠ good + 1`, the bisection terminates in a
state with `bad = good + 1`, and the number of binary-mode round trips from an
initial gap of `bad - good` is at most `⌈log2 (bad - good)⌉`. -/
theorem binary_bisection
    (checkHeaderG canConnectG : Header → Option Nat) (forkOracle : Nat → Header → Chain)
    (chunkSize : Nat) (st : NetSt) (i : Iface) (header : Header)
    (chainOpt : Option (Nat × Chain)) (found : Nat → Bool) (good bad : Nat)
    (hmode : i.mode = .binary)
    (hreq : i.request = some header.blockHeight)
    (hres : resolve st.chains (checkHeaderG header) = some chainOpt)
    (hne : (binaryUpdate chainOpt header.blockHeight header i).bad
        ≠ (binaryUpdate chainOpt header.blockHeight header i).good + 1)
    (hgb : good < bad) :
    (∃ out, on_get_header checkHeaderG canConnectG forkOracle chunkSize st i (some header) = some out ∧
        out.action = some (.reqHeader
          (((binaryUpdate chainOpt header.blockHeight header i).bad
            + (binaryUpdate chainOpt header.blockHeight header i).good) / 2)) ∧
        out.net = st) ∧
    (binaryRounds found good bad).2.2 = (binaryRounds found good bad).2.1 + 1 ∧
    (binaryRounds found good bad).1 ≤ Nat.clog 2 (bad - good) := by
  refine ⟨?_, binaryRoundsFuel_spec found (bad - good) good bad hgb (by omega)⟩
  cases chainOpt with
  | none =>
    simp only [binaryUpdate] at hne ⊢
    have hcond : ¬ (((header.blockHeight : Int) + (i.good : Int)) / 2 < 0) := by omega
    have htn : (((header.blockHeight : Int) + (i.good : Int)) / 2).toNat
        = (header.blockHeight + i.good) / 2 := by omega
    simp [on_get_header, hreq, hres, hmode, binaryRes, binaryUpdate, hne, finishGH, hcond, htn]
  | some kc =>
    obtain ⟨k, c⟩ := kc
    simp only [binaryUpdate] at hne ⊢
    have hcond : ¬ (((i.bad : Int) + (header.blockHeight : Int)) / 2 < 0) := by omega
    have htn : (((i.bad : Int) + (header.blockHeight : Int)) / 2).toNat
        = (i.bad + header.blockHeight) / 2 := by omega
    simp [on_get_header, hreq, hres, hmode, binaryRes, binaryUpdate, hne, finishGH, hcond, htn]

/-- Witness for C1 at a concrete binary-mode state and a concrete oracle. -/
theorem binary_bisection_witness :
    (∃ out, on_get_header (fun _ => none) (fun _ => none) (fun _ _ => inertChain) 2016
        ⟨[], [], []⟩ c1iface (some ⟨4, 0⟩) = some out ∧
      out.action = some (.reqHeader
        (((binaryUpdate none 4 ⟨4, 0⟩ c1iface).bad + (binaryUpdate none 4 ⟨4, 0⟩ c1iface).good) / 2)) ∧
      out.net = (⟨[], [], []⟩ : NetSt)) ∧
    (binaryRounds (fun _ => true) 0 4).2.2 = (binaryRounds (fun _ => true) 0 4).2.1 + 1 ∧
    (binaryRounds (fun _ => true) 0 4).1 ≤ Nat.clog 2 (4 - 0) :=
  binary_bisection (fun _ => none) (fun _ => none) (fun _ _ => inertChain) 2016
    ⟨[], [], []⟩ c1iface ⟨4, 0⟩ none (fun _ => true) 0 4 rfl rfl rfl (by decide) (by decide)

/-- Counterexample for C1 as stated: from gap `3` the bisection can finish in
a single round trip, strictly fewer than `⌈log2 3⌉ = 2`, so the round-trip
count is not always equal to `⌈log2 (bad - good)⌉`. -/
theorem binary_round_count_counterexample :
    (binaryRounds (fun m => decide (m ≤ 0)) 0 3).1 ≠ Nat.clog 2 (3 - 0) := by
  have h1 : (binaryRounds (fun m => decide (m ≤ 0)) 0 3).1 = 1 := by decide
  have h2 : 1 < Nat.clog 2 3 := (Nat.pow_lt_iff_lt_clog one_lt_two).mp (by norm_num)
  rw [h1, Nat.sub_zero]
  omega

/-! ## Claim C8: cached subscription responses -/

/-- Claim C8 (amended): a subscribe call processed by `process_pending_sends`
after a response for the same canonical index has been cached gets its
registered callback invoked with the cached response and queues no new
request (the unanswered-request table, the message-id counter and the cache
are untouched) - provided the method does not end in `contract.subscribe`,
which the code exempts from the cache short-circuit. -/
theorem subscribe_cache_hit
    (st : RouterSt) (method : String) (params : List String) (callback : Nat)
    (k : String) (r : Nat)
    (hsub : strEndsWith method ".subscribe" = true)
    (hnc : strEndsWith method "contract.subscribe" = false)
    (hk : get_index method params = some k)
    (hc : alistGet st.subCache k = some r) :
    ∃ st2, process_send_one st method params callback = some (st2, [(callback, r)]) ∧
      st2.unanswered = st.unanswered ∧
      st2.messageId = st.messageId ∧
      st2.subCache = st.subCache := by
  simp [process_send_one, hsub, hnc, hk, hc]

/-- Witness for C8 at a concrete cached scripthash subscription. -/
theorem subscribe_cache_hit_witness :
    ∃ st2, process_send_one c8wit "blockchain.scripthash.subscribe" ["aa"] 7 =
        some (st2, [(7, 42)]) ∧
      st2.unanswered = c8wit.unanswered ∧
      st2.messageId = c8wit.messageId ∧
      st2.subCache = c8wit.subCache :=
  subscribe_cache_hit c8wit "blockchain.scripthash.subscribe" ["aa"] 7
    "blockchain.scripthash.subscribe:aa" 42 (by decide) (by decide) rfl rfl

/-- Counterexample for C8 as stated: for a method ending in
`contract.subscribe` the cached response is ignored - the callback is not
invoked and a fresh request is queued (the unanswered table grows and the
message id advances). -/
theorem contract_subscribe_cache_bypass_counterexample :
    alistGet c8st.subCache "blockchain.contract.subscribe:cc" = some 42 ∧
    (process_send_one c8st "blockchain.contract.subscribe" ["cc"] 7).map
        (fun p => (p.2, p.1.unanswered, p.1.messageId)) =
      some ([], [(5, "blockchain.contract.subscribe", ["cc"], 7)], 6) := by
  exact ⟨rfl, rfl⟩

/-! ## Claim C5: switching the active interface -/

/-- The requests queued by the unanswered-request resend are exactly the
stored `(method, params)` pairs, in order. -/
theorem resendUnanswered_queued (reqs : List (String × List String × Nat)) (mid : Nat) :
    (resendUnanswered reqs mid).2.2 = reqs.map (fun e => (e.1, e.2.1)) := by
  induction reqs generalizing mid with
  | nil => rfl
  | cons e rest ih => simp [resendUnanswered, ih]

/-- `countReq` distributes over append. -/
theorem countReq_append (x : String × List String) (l1 l2 : List (String × List String)) :
    countReq x (l1 ++ l2) = countReq x l1 + countReq x l2 := by
  induction l1 with
  | nil => simp [countReq]
  | cons y rest ih => simp [countReq, ih]; omega

/-- Requests built with a different constant method are never counted. -/
theorem countReq_map_const_method {α : Type} (l : List α) (f : α → List String)
    (m m2 : String) (ps : List String) (hne : m ≠ m2) :
    countReq (m2, ps) (l.map (fun t => (m, f t))) = 0 := by
  induction l with
  | nil => rfl
  | cons y rest ih =>
    have : ¬ ((m, f y) = (m2, ps)) := by
      intro h
      exact hne (congrArg Prod.fst h)
    simp [countReq, this, ih]

/-- A request built from a key outside the list is never counted in the
mapped list, when the constructor is injective. -/
theorem countReq_map_not_mem {α : Type} (l : List α) (f : α → String × List String)
    (hinj : Function.Injective f) (a : α) (ha : a ∉ l) :
    countReq (f a) (l.map f) = 0 := by
  induction l with
  | nil => rfl
  | cons y rest ih =>
    have h1 : ¬ (f y = f a) := fun hc => ha (by rw [← hinj hc]; exact List.mem_cons_self _ _)
    have h2 : a ∉ rest := fun hc => ha (List.mem_cons_of_mem _ hc)
    simp [countReq, h1, ih h2]

/-- A request built from a member of a duplicate-free key list by an injective
constructor is counted exactly once in the mapped list. -/
theorem countReq_map_inj_nodup {α : Type} (l : List α)
    (f : α → String × List String) (hinj : Function.Injective f) (a : α)
    (hnd : l.Nodup) (ha : a ∈ l) :
    countReq (f a) (l.map f) = 1 := by
  induction l with
  | nil => cases ha
  | cons y rest ih =>
    rw [List.nodup_cons] at hnd
    rcases List.mem_cons.mp ha with h | h
    · subst h
      simp [countReq, countReq_map_not_mem rest f hinj _ hnd.1]
    · have hne : ¬ (f y = f a) := fun hc => hnd.1 (by rw [hinj hc]; exact h)
      simp [countReq, hne, ih hnd.2 h]

/-- Claim C5 (amended): whenever `switch_to_interface` changes the active
interface to a connected server different from the current one, the
subscription response cache is emptied and every standing subscription (each
subscribed scripthash and token tuple, plus the banner, fee-estimate and
relay-fee requests) is queued exactly once from the standing tables - plus
once more for each identical `(method, params)` request still present in the
unanswered-request table, which is also resent. -/
theorem switch_resends_subscriptions
    (feeTargets : List Nat) (server : String) (st : SwitchSt)
    (hconn : server ∈ st.interfaces)
    (hdiff : st.currentServer ≠ some server)
    (hnads : st.sub.subscribedAddresses.Nodup)
    (hntoks : st.sub.subscribedTokens.Nodup)
    (hnfees : (feeTargets.map (fun t => toString t)).Nodup) :
    ((switch_to_interface feeTargets server st).1.sub.subCache = []) ∧
    ((switch_to_interface feeTargets server st).1.currentServer = some server) ∧
    (∀ a ∈ st.sub.subscribedAddresses,
      countReq ("blockchain.scripthash.subscribe", [a]) (switch_to_interface feeTargets server st).2 =
        1 + countReq ("blockchain.scripthash.subscribe", [a])
              (st.sub.unanswered.map (fun e => (e.2.1, e.2.2.1)))) ∧
    (∀ t ∈ st.sub.subscribedTokens,
      countReq ("blockchain.contract.event.subscribe", [t.1, t.2.1, t.2.2])
          (switch_to_interface feeTargets server st).2 =
        1 + countReq ("blockchain.contract.event.subscribe", [t.1, t.2.1, t.2.2])
              (st.sub.unanswered.map (fun e => (e.2.1, e.2.2.1)))) ∧
    (countReq ("server.banner", []) (switch_to_interface feeTargets server st).2 =
      1 + countReq ("server.banner", []) (st.sub.unanswered.map (fun e => (e.2.1, e.2.2.1)))) ∧
    (countReq ("blockchain.relayfee", []) (switch_to_interface feeTargets server st).2 =
      1 + countReq ("blockchain.relayfee", [])
            (st.sub.unanswered.map (fun e => (e.2.1, e.2.2.1)))) ∧
    (∀ f ∈ feeTargets,
      countReq ("blockchain.estimatefee", [toString f]) (switch_to_interface feeTargets server st).2 =
        1 + countReq ("blockchain.estimatefee", [toString f])
              (st.sub.unanswered.map (fun e => (e.2.1, e.2.2.1)))) := by
  have hqc : (switch_to_interface feeTargets server st).2 =
      (st.sub.unanswered.map (fun e => (e.2.1, e.2.2.1)))
        ++ [(("server.banner" : String), ([] : List String))]
        ++ feeTargets.map (fun t => (("blockchain.estimatefee" : String), [toString t]))
        ++ [(("blockchain.relayfee" : String), ([] : List String))]
        ++ st.sub.subscribedAddresses.map
            (fun h => (("blockchain.scripthash.subscribe" : String), [h]))
        ++ st.sub.subscribedTokens.map
            (fun t => (("blockchain.contract.event.subscribe" : String), [t.1, t.2.1, t.2.2])) := by
    simp [switch_to_interface, hconn, hdiff, send_subscriptions, resendUnanswered_queued,
      List.map_map]
  have hinjA : Function.Injective
      (fun h : String => (("blockchain.scripthash.subscribe" : String), [h])) := by
    intro x y hxy
    simpa using hxy
  have hinjT : Function.Injective
      (fun t : String × String × String =>
        (("blockchain.contract.event.subscribe" : String), [t.1, t.2.1, t.2.2])) := by
    intro x y hxy
    obtain ⟨x1, x2, x3⟩ := x
    obtain ⟨y1, y2, y3⟩ := y
    simp only [Prod.mk.injEq, List.cons.injEq, and_true, true_and] at hxy
    simp [hxy.1, hxy.2.1, hxy.2.2]
  have hinjF : Function.Injective
      (fun s : String => (("blockchain.estimatefee" : String), [s])) := by
    intro x y hxy
    simpa using hxy
  have hcompF : feeTargets.map (fun t => (("blockchain.estimatefee" : String), [toString t])) =
      (feeTargets.map (fun t => toString t)).map
        (fun s : String => (("blockchain.estimatefee" : String), [s])) := by
    rw [List.map_map]
    rfl
  refine ⟨?_, ?_, ?_, ?_, ?_, ?_, ?_⟩
  · simp [switch_to_interface, hconn, hdiff, send_subscriptions]
  · simp [switch_to_interface, hconn, hdiff]
  · intro a ha
    have hone := countReq_map_inj_nodup st.sub.subscribedAddresses _ hinjA a hnads ha
    rw [hqc]
    simp only [countReq_append]
    rw [hone,
      countReq_map_const_method feeTargets (fun t => [toString t]) _ _ _ (by decide),
      countReq_map_const_method st.sub.subscribedTokens (fun t => [t.1, t.2.1, t.2.2]) _ _ _
        (by decide)]
    simp [countReq]
    omega
  · intro t ht
    have hone := countReq_map_inj_nodup st.sub.subscribedTokens _ hinjT t hntoks ht
    rw [hqc]
    simp only [countReq_append]
    rw [hone,
      countReq_map_const_method feeTargets (fun t => [toString t]) _ _ _ (by decide),
      countReq_map_const_method st.sub.subscribedAddresses (fun h => [h]) _ _ _ (by decide)]
    simp [countReq]
    omega
  · rw [hqc]
    simp only [countReq_append]
    rw [countReq_map_const_method feeTargets (fun t => [toString t]) _ _ _ (by decide),
      countReq_map_const_method st.sub.subscribedAddresses (fun h => [h]) _ _ _ (by decide),
      countReq_map_const_method st.sub.subscribedTokens (fun t => [t.1, t.2.1, t.2.2]) _ _ _
        (by decide)]
    simp [countReq]
    omega
  · rw [hqc]
    simp only [countReq_append]
    rw [countReq_map_const_method feeTargets (fun t => [toString t]) _ _ _ (by decide),
      countReq_map_const_method st.sub.subscribedAddresses (fun h => [h]) _ _ _ (by decide),
      countReq_map_const_method st.sub.subscribedTokens (fun t => [t.1, t.2.1, t.2.2]) _ _ _
        (by decide)]
    simp [countReq]
    omega
  · intro f hf
    have hmem : toString f ∈ feeTargets.map (fun t => toString t) :=
      List.mem_map_of_mem _ hf
    have hone := countReq_map_inj_nodup (feeTargets.map (fun t => toString t)) _ hinjF
      (toString f) hnfees hmem
    rw [hqc, hcompF]
    simp only [countReq_append]
    rw [hone,
      countReq_map_const_method st.sub.subscribedAddresses (fun h => [h]) _ _ _ (by decide),
      countReq_map_const_method st.sub.subscribedTokens (fun t => [t.1, t.2.1, t.2.2]) _ _ _
        (by decide)]
    simp [countReq]
    omega

/-- Witness for C5: switching to connected server `b` clears the cache and
queues the standing scripthash subscription exactly once (no duplicate
in-flight request). -/
theorem switch_resends_witness :
    ((switch_to_interface [25, 10] "b" c5wit).1.sub.subCache = []) ∧
    countReq ("blockchain.scripthash.subscribe", ["aa"])
        (switch_to_interface [25, 10] "b" c5wit).2 =
      1 + countReq ("blockchain.scripthash.subscribe", ["aa"])
            (c5wit.sub.unanswered.map (fun e => (e.2.1, e.2.2.1))) := by
  have h := switch_resends_subscriptions [25, 10] "b" c5wit (by decide) (by decide)
    (by decide) (by decide) (by decide)
  exact ⟨h.1, h.2.2.1 "aa" (by decide)⟩

/-- Counterexample for C5 as stated: when the subscription for scripthash
`aa` is both standing (in `subscribed_addresses`) and still unanswered in
flight, switching queues it twice, not exactly once. -/
theorem switch_double_resend_counterexample :
    "aa" ∈ c5st.sub.subscribedAddresses ∧
    "b" ∈ c5st.interfaces ∧
    c5st.currentServer ≠ some "b" ∧
    countReq ("blockchain.scripthash.subscribe", ["aa"])
      (switch_to_interface [] "b" c5st).2 = 2 := by
  refine ⟨by decide, by decide, by decide, by decide⟩

/-! ## Claim C9: disconnected-server cooldown -/

/-- `start_random_interface` changes neither the disconnected set nor the
nodes-retry timestamp. -/
theorem start_random_interface_fields (choose : List String → Option String)
    (servers : List String) (st : MaintSt) :
    (start_random_interface choose servers st).1.disconnected = st.disconnected ∧
    (start_random_interface choose servers st).1.nodesRetryTime = st.nodesRetryTime := by
  constructor <;>
  · simp only [start_random_interface]
    split
    · simp only [start_interface]
      split <;> rfl
    · rfl

/-- Claim C9 (amended): a backward search that fails at height 0 places the
server in `disconnected_servers`; while there, `start_random_interface` never
selects it; and it leaves the set only through the nodes-retry clear of
`maintain_sockets` after `NODES_RETRY_INTERVAL`, or - when it is the default
server, auto-connect is off and nothing is connected - through the per-server
retry removal after `SERVER_RETRY_INTERVAL`. -/
theorem disconnected_cooldown
    (checkHeaderG canConnectG : Header → Option Nat) (forkOracle : Nat → Header → Chain)
    (chunkSize : Nat) (nst : NetSt) (i : Iface) (header : Header) (canC : Option (Nat × Chain))
    (choose : List String → Option String) (servers : List String) (now : Int)
    (st : MaintSt) (s : String)
    (hchoose : ∀ l x, choose l = some x → x ∈ l) :
    (i.mode = .backward → i.request = some header.blockHeight → header.blockHeight = 0 →
      checkHeaderG header = none →
      resolve nst.chains (canConnectG header) = some canC →
      (∀ k c, canC = some (k, c) → c.catchUp ≠ none) →
      ∃ out, on_get_header checkHeaderG canConnectG forkOracle chunkSize nst i (some header) =
          some out ∧ i.server ∈ out.net.disconnected) ∧
    (s ∈ st.disconnected → (start_random_interface choose servers st).2 ≠ some s) ∧
    (s ∈ st.disconnected → s ∉ (maintain_sockets_nodes choose servers now st).1.disconnected →
      now - st.nodesRetryTime > NODES_RETRY_INTERVAL ∧
      st.interfaces.length + st.connecting.length < st.numServer) ∧
    (s ∈ st.disconnected → s ∉ (maintain_sockets_main now st).disconnected →
      s = st.defaultServer ∧ st.autoConnect = false ∧ st.connected = false ∧
      now - st.serverRetryTime > SERVER_RETRY_INTERVAL) := by
  refine ⟨?_, ?_, ?_, ?_⟩
  · intro hmode hreq hzero hchk hcc hbusy
    exact (backward_probe_or_teardown checkHeaderG canConnectG forkOracle chunkSize nst i
      header canC hmode hreq hchk hcc hbusy).2 hzero |>.imp
        (fun out h => ⟨h.1, h.2.1⟩)
  · intro hs hsel
    simp only [start_random_interface] at hsel
    cases hc : pick_random_server servers (st.disconnected ++ st.interfaces) choose with
    | none => rw [hc] at hsel; simp at hsel
    | some srv =>
      rw [hc] at hsel
      simp only at hsel
      have hss : srv = s := by simpa using hsel
      subst hss
      have hc2 : choose (servers.filter (fun x => x ∉ st.disconnected ++ st.interfaces)) =
          some srv := hc
      have hmem := hchoose _ _ hc2
      rw [List.mem_filter] at hmem
      have hout : srv ∉ st.disconnected ++ st.interfaces := by simpa using hmem.2
      exact hout (List.mem_append_left _ hs)
  · intro hs hrem
    simp only [maintain_sockets_nodes] at hrem
    obtain ⟨hd, ht⟩ := start_random_interface_fields choose servers st
    by_cases hcap : st.interfaces.length + st.connecting.length < st.numServer
    · rw [if_pos hcap] at hrem
      by_cases hel : now - (start_random_interface choose servers st).1.nodesRetryTime >
          NODES_RETRY_INTERVAL
      · rw [if_pos hel] at hrem
        rw [ht] at hel
        exact ⟨hel, hcap⟩
      · rw [if_neg hel] at hrem
        rw [hd] at hrem
        exact absurd hs hrem
    · rw [if_neg hcap] at hrem
      exact absurd hs hrem
  · intro hs hrem
    unfold maintain_sockets_main at hrem
    by_cases hc1 : st.connected
    · rw [if_pos hc1] at hrem
      exact absurd hs hrem
    rw [if_neg hc1] at hrem
    by_cases hc2 : st.autoConnect
    · rw [if_pos hc2] at hrem
      exact absurd hs hrem
    rw [if_neg hc2] at hrem
    by_cases hc3 : st.defaultServer ∈ st.disconnected
    · rw [if_pos hc3] at hrem
      by_cases hc4 : now - st.serverRetryTime > SERVER_RETRY_INTERVAL
      · rw [if_pos hc4] at hrem
        have hseq : s = st.defaultServer := by
          by_contra hne
          exact hrem ((List.mem_erase_of_ne hne).mpr hs)
        exact ⟨hseq, by simpa using hc2, by simpa using hc1, hc4⟩
      · rw [if_neg hc4] at hrem
        exact absurd hs hrem
    · rw [if_neg hc3] at hrem
      exact absurd hs hrem

/-- Witness for C9: a backward failure at height 0 lands the server in the
disconnected set, and a disconnected server is never picked by
`start_random_interface`. -/
theorem disconnected_cooldown_witness :
    (∃ out, on_get_header (fun _ => none) (fun _ => none) (fun _ _ => inertChain) 2016
        ⟨[], [], []⟩ c9iface (some ⟨0, 0⟩) = some out ∧
      c9iface.server ∈ out.net.disconnected) ∧
    (start_random_interface (fun l => l.head?) ["srv", "other"] c9st).2 ≠ some "srv" := by
  have h := disconnected_cooldown (fun _ => none) (fun _ => none) (fun _ _ => inertChain) 2016
    ⟨[], [], []⟩ c9iface ⟨0, 0⟩ none (fun l => l.head?) ["srv", "other"] 11 c9st "srv"
    (fun l x hx => by
      cases l with
      | nil => cases hx
      | cons a t =>
        simp only [List.head?] at hx
        cases hx
        exact List.mem_cons_self _ _)
  exact ⟨h.1 rfl rfl rfl rfl rfl (fun k c hkc => nomatch hkc), h.2.1 (by decide)⟩

/-- Counterexample for C9 as stated: the default server is removed from the
disconnected set by the per-server retry branch of `maintain_sockets` after
only `SERVER_RETRY_INTERVAL`, while the nodes-retry clear has not fired. -/
theorem server_retry_removal_counterexample :
    "srv" ∈ c9st.disconnected ∧
    ¬ ((11 : Int) - c9st.nodesRetryTime > NODES_RETRY_INTERVAL) ∧
    "srv" ∉ (maintain_sockets_main 11 c9st).disconnected := by
  refine ⟨by decide, by decide, by decide⟩

/-! ## Claim C2: exclusivity of the `catch_up` marker -/

/-- Claim C2 (amended): `connection_down(server)` clears the marker of every
blockchain whose `catch_up` equals that server, and every `on_get_header`
transition that hands a chain's `catch_up` marker to a server while it named a
different server is the binary-mode forkpoint-conflict overwrite: the stolen
chain fails both its own `check_header` and its parent's `check_header` test,
and the thief is the responding interface's server.  Every other transition
acquires a marker only when it is `None`. -/
theorem catchup_marker_exclusive
    (checkHeaderG canConnectG : Header → Option Nat) (forkOracle : Nat → Header → Chain)
    (chunkSize : Nat) (st : NetSt) (i : Iface) (resp : Option Header) (out : GetHeaderOut)
    (k : Nat) (c c' : Chain) (s : String)
    (hrun : on_get_header checkHeaderG canConnectG forkOracle chunkSize st i resp = some out)
    (hpre : lookupChain st.chains k = some c)
    (hpost : lookupChain out.net.chains k = some c')
    (hacq : c'.catchUp = some s)
    (hne1 : c.catchUp ≠ some s)
    (hne2 : c.catchUp ≠ none) :
    (i.mode = .binary ∧ s = i.server ∧
      ∃ hdr bh, resp = some hdr ∧ c.checkHeader bh = false ∧ c.parentCheckH hdr = false) ∧
    (∀ srv st2 k2 c2, lookupChain (connection_down srv st2).chains k2 = some c2 →
      c2.catchUp ≠ some srv) := by
  refine ⟨?_, fun srv st2 k2 c2 hcd => connection_down_clears srv st2 k2 c2 hcd⟩
  cases resp with
  | none =>
    obtain rfl := Option.some.inj hrun
    obtain ⟨c0, hl, hrel⟩ := clearMarkers_lookup_back i.server st.chains k c' hpost
    obtain rfl := lookup_unchanged_eq hl hpre
    rcases hrel with hrel | hrel
    · exact absurd (hrel ▸ hacq) hne1
    · rw [hrel] at hacq
      cases hacq
  | some header =>
    simp only [on_get_header] at hrun
    by_cases hreq : i.request = some header.blockHeight
    · rw [if_pos hreq] at hrun
      cases hres : resolve st.chains (checkHeaderG header) with
      | none => simp only [hres] at hrun; cases hrun
      | some chainOpt =>
        simp only [hres] at hrun
        cases hmode : i.mode with
        | default => rw [hmode] at hrun; cases hrun
        | backward =>
          rw [hmode] at hrun
          cases hcc : resolve st.chains (canConnectG header) with
          | none => simp only [hcc] at hrun; cases hrun
          | some canC =>
            simp only [hcc] at hrun
            obtain rfl := Option.some.inj hrun
            obtain ⟨c1, hl1, hrel1⟩ := finishGH_lookup_back chunkSize _ k c' hpost
            have hc1 : c1.catchUp = some s := by
              rcases hrel1 with hrel1 | hrel1
              · rw [← hrel1]; exact hacq
              · rw [hrel1] at hacq; cases hacq
            rcases backwardRes_marker_guard st i header header.blockHeight chainOpt canC
                (resolve_sound st.chains (canConnectG header) canC hcc) k c c1 s hpre hl1 hc1
              with hg | hg
            · exact absurd hg hne1
            · exact absurd hg hne2
        | binary =>
          rw [hmode] at hrun
          cases hb : binaryRes forkOracle st i header header.blockHeight chainOpt with
          | none => rw [hb] at hrun; cases hrun
          | some r =>
            rw [hb] at hrun
            obtain rfl := Option.some.inj hrun
            obtain ⟨c1, hl1, hrel1⟩ := finishGH_lookup_back chunkSize r k c' hpost
            have hc1 : c1.catchUp = some s := by
              rcases hrel1 with hrel1 | hrel1
              · rw [← hrel1]; exact hacq
              · rw [hrel1] at hacq; cases hacq
            rcases binaryRes_marker_guard forkOracle st i header header.blockHeight chainOpt r
                hb k c c1 s hpre hl1 hc1 with hg | hg | hg
            · exact absurd hg hne1
            · exact absurd hg hne2
            · obtain ⟨hsv, bh, hch, hpar⟩ := hg
              exact ⟨rfl, hsv, header, bh, rfl, hch, hpar⟩
        | catchUp =>
          rw [hmode] at hrun
          cases hcu : catchUpRes st i header header.blockHeight with
          | none => rw [hcu] at hrun; cases hrun
          | some r =>
            rw [hcu] at hrun
            obtain rfl := Option.some.inj hrun
            obtain ⟨c1, hl1, hrel1⟩ := finishGH_lookup_back chunkSize r k c' hpost
            have hc1 : c1.catchUp = some s := by
              rcases hrel1 with hrel1 | hrel1
              · rw [← hrel1]; exact hacq
              · rw [hrel1] at hacq; cases hacq
            rcases catchUpRes_marker_guard st i header header.blockHeight r hcu k c c1 s
                hpre hl1 hc1 with hg | hg
            · exact absurd hg hne1
            · exact absurd hg hne2
    · rw [if_neg hreq] at hrun
      obtain rfl := Option.some.inj hrun
      obtain ⟨c0, hl, hrel⟩ := clearMarkers_lookup_back i.server st.chains k c' hpost
      obtain rfl := lookup_unchanged_eq hl hpre
      rcases hrel with hrel | hrel
      · exact absurd (hrel ▸ hacq) hne1
      · rw [hrel] at hacq
        cases hacq

/-- Counterexample for C2 as stated: the binary-mode forkpoint-conflict
overwrite sets `branch.catch_up` to `s1` while it currently names `s2` - a
marker acquisition that does not wait for the marker to be `None`. -/
theorem catchup_marker_steal_counterexample :
    (lookupChain c2net.chains 7).map Chain.catchUp = some (some "s2") ∧
    ((on_get_header (fun _ => none) (fun _ => none) (fun _ _ => inertChain) 2016 c2net c2iface
        (some c2hdr)).map (fun out => (lookupChain out.net.chains 7).map Chain.catchUp)) =
      some (some (some "s1")) :=
  ⟨rfl, rfl⟩

/-- Witness for C2 at the concrete conflict scenario. -/
theorem catchup_marker_witness :
    c2iface.mode = .binary ∧ "s1" = c2iface.server ∧
    (∃ hdr bh, (some c2hdr : Option Header) = some hdr ∧
      c2branch.checkHeader bh = false ∧ c2branch.parentCheckH hdr = false) :=
  (catchup_marker_exclusive (fun _ => none) (fun _ => none) (fun _ _ => inertChain) 2016
    c2net c2iface (some c2hdr) c2out 7 c2branch c2stolen "s1" rfl rfl rfl rfl
    (by decide) (by decide)).1

end QtumElectrum
